import Mathlib

/-!
Shallow embedding of the camera-file-sorting program (src/main.py).

Strings are modelled as lists of characters. Python functions become total
Lean functions; the outcomes of external calls (the ExifTool subprocess, the
filesystem) are passed in explicitly as data. Concurrency is modelled by
quantifying over the completion order of the parallel tasks.
-/

namespace CameraSort

/-- Python datetime.date value; Python compares dates lexicographically. -/
structure PyDate where
  year : Nat
  month : Nat
  day : Nat
deriving DecidableEq, Repr

/-- Python datetime.datetime value (the parsers in main.py never produce
sub-second fields). -/
structure PyDateTime where
  year : Nat
  month : Nat
  day : Nat
  hour : Nat
  minute : Nat
  second : Nat
deriving DecidableEq, Repr

/-- Python date comparison a <= b: lexicographic on (year, month, day). -/
def PyDate.leb (a b : PyDate) : Bool :=
  decide (a.year < b.year ∨ (a.year = b.year ∧
    (a.month < b.month ∨ (a.month = b.month ∧ a.day ≤ b.day))))

/-- Python str.strip default whitespace characters (the ASCII ones). -/
def pyIsSpace (c : Char) : Bool :=
  c == ' ' || c == '\t' || c == '\n' || c == '\r' ||
  c == Char.ofNat 11 || c == Char.ofNat 12

/-- Python str.strip(): drop leading and trailing whitespace. -/
def pyStrip (l : List Char) : List Char :=
  ((l.dropWhile pyIsSpace).reverse.dropWhile pyIsSpace).reverse

/-- Python str.replace(old, new) for single characters. -/
def pyReplace (old new : Char) (l : List Char) : List Char :=
  l.map fun c => if c = old then new else c

/-- Python substring containment (sub in s). -/
def containsSub (sep : List Char) : List Char → Bool
  | [] => sep.isEmpty
  | c :: rest => sep.isPrefixOf (c :: rest) || containsSub sep rest

/-- Python str.split(sep) for a non-empty separator: scan left to right,
splitting at each non-overlapping occurrence. The fuel argument only serves
termination; pySplit supplies more fuel than the scan can consume. -/
def pySplitGo (sep : List Char) : Nat → List Char → List Char → List (List Char)
  | 0, s, acc => [acc.reverse ++ s]
  | _ + 1, [], acc => [acc.reverse]
  | fuel + 1, c :: rest, acc =>
    if sep.isPrefixOf (c :: rest) then
      acc.reverse :: pySplitGo sep fuel (List.drop sep.length (c :: rest)) []
    else
      pySplitGo sep fuel rest (c :: acc)

def pySplit (sep s : List Char) : List (List Char) :=
  pySplitGo sep (s.length + 1) s []

/-- Numeric value of a digit character. -/
def digitVal (c : Char) : Nat := c.toNat - 48

/-- Candidate matches, in regex alternation order, for the strptime day
directive (pattern 3[01] or [12]d or 0[1-9] or [1-9]); each candidate is the
parsed value paired with the remaining input. -/
def dayCands : List Char → List (Nat × List Char)
  | c1 :: c2 :: rest =>
    (if c1 = '3' ∧ (c2 = '0' ∨ c2 = '1') then [(30 + digitVal c2, rest)] else []) ++
    (if (c1 = '1' ∨ c1 = '2') ∧ c2.isDigit then [(digitVal c1 * 10 + digitVal c2, rest)] else []) ++
    (if c1 = '0' ∧ ('1' ≤ c2 ∧ c2 ≤ '9') then [(digitVal c2, rest)] else []) ++
    (if '1' ≤ c1 ∧ c1 ≤ '9' then [(digitVal c1, c2 :: rest)] else [])
  | [c1] => if '1' ≤ c1 ∧ c1 ≤ '9' then [(digitVal c1, [])] else []
  | [] => []

/-- strptime month directive (pattern 1[0-2] or 0[1-9] or [1-9]). -/
def monthCands : List Char → List (Nat × List Char)
  | c1 :: c2 :: rest =>
    (if c1 = '1' ∧ ('0' ≤ c2 ∧ c2 ≤ '2') then [(10 + digitVal c2, rest)] else []) ++
    (if c1 = '0' ∧ ('1' ≤ c2 ∧ c2 ≤ '9') then [(digitVal c2, rest)] else []) ++
    (if '1' ≤ c1 ∧ c1 ≤ '9' then [(digitVal c1, c2 :: rest)] else [])
  | [c1] => if '1' ≤ c1 ∧ c1 ≤ '9' then [(digitVal c1, [])] else []
  | [] => []

/-- strptime hour directive (pattern 2[0-3] or [0-1]d or d). -/
def hourCands : List Char → List (Nat × List Char)
  | c1 :: c2 :: rest =>
    (if c1 = '2' ∧ ('0' ≤ c2 ∧ c2 ≤ '3') then [(20 + digitVal c2, rest)] else []) ++
    (if (c1 = '0' ∨ c1 = '1') ∧ c2.isDigit then [(digitVal c1 * 10 + digitVal c2, rest)] else []) ++
    (if c1.isDigit then [(digitVal c1, c2 :: rest)] else [])
  | [c1] => if c1.isDigit then [(digitVal c1, [])] else []
  | [] => []

/-- strptime minute directive (pattern [0-5]d or d). -/
def minCands : List Char → List (Nat × List Char)
  | c1 :: c2 :: rest =>
    (if ('0' ≤ c1 ∧ c1 ≤ '5') ∧ c2.isDigit then [(digitVal c1 * 10 + digitVal c2, rest)] else []) ++
    (if c1.isDigit then [(digitVal c1, c2 :: rest)] else [])
  | [c1] => if c1.isDigit then [(digitVal c1, [])] else []
  | [] => []

/-- strptime second directive (pattern 6[0-1] or [0-5]d or d). -/
def secCands : List Char → List (Nat × List Char)
  | c1 :: c2 :: rest =>
    (if c1 = '6' ∧ (c2 = '0' ∨ c2 = '1') then [(60 + digitVal c2, rest)] else []) ++
    (if ('0' ≤ c1 ∧ c1 ≤ '5') ∧ c2.isDigit then [(digitVal c1 * 10 + digitVal c2, rest)] else []) ++
    (if c1.isDigit then [(digitVal c1, c2 :: rest)] else [])
  | [c1] => if c1.isDigit then [(digitVal c1, [])] else []
  | [] => []

/-- strptime year directive: exactly four digits. -/
def year4 : List Char → Option (Nat × List Char)
  | a :: b :: c :: d :: rest =>
    if a.isDigit ∧ b.isDigit ∧ c.isDigit ∧ d.isDigit then
      some (((digitVal a * 10 + digitVal b) * 10 + digitVal c) * 10 + digitVal d, rest)
    else none
  | _ => none

/-- First successful alternative, in order: the backtracking of the regex
alternations. -/
def firstSome {α β : Type} (f : α → Option β) : List α → Option β
  | [] => none
  | a :: as =>
    match f a with
    | some b => some b
    | none => firstSome f as

/-- Python calendar leap-year rule. -/
def isLeap (y : Nat) : Bool := y % 4 == 0 && (y % 100 != 0 || y % 400 == 0)

def daysInMonth (y m : Nat) : Nat :=
  if m = 2 then (if isLeap y then 29 else 28)
  else if m = 4 ∨ m = 6 ∨ m = 9 ∨ m = 11 then 30
  else 31

/-- datetime.date constructor validity. -/
def validDate (y m d : Nat) : Bool :=
  decide (1 ≤ y ∧ y ≤ 9999 ∧ 1 ≤ m ∧ m ≤ 12 ∧ 1 ≤ d ∧ d ≤ daysInMonth y m)

/-- Full regex match for strptime format day/month/year with slashes: tries
alternatives in regex order and requires the whole input to be consumed. -/
def matchDMY (s : List Char) : Option (Nat × Nat × Nat) :=
  firstSome (fun dc =>
    match dc.2 with
    | '/' :: r1 =>
      firstSome (fun mc =>
        match mc.2 with
        | '/' :: r2 =>
          match year4 r2 with
          | some (y, []) => some (dc.1, mc.1, y)
          | _ => none
        | _ => none) (monthCands r1)
    | _ => none) (dayCands s)

/-- datetime.strptime(s, day/month/year).date(): the regex match first, then
the date constructor validation; any failure raises, i.e. yields none. -/
def parseDMY (s : List Char) : Option PyDate :=
  match matchDMY s with
  | some (d, m, y) => if validDate y m d then some ⟨y, m, d⟩ else none
  | none => none

/-- The en dash character replaced by parse_date_input. -/
def enDash : Char := Char.ofNat 8211

/-- The em dash character replaced by parse_date_input. -/
def emDash : Char := Char.ofNat 8212

/-- parse_date_input from src/main.py: a single date or a range; any raised
error is caught and yields none, standing for the (None, None) return. The
dash replacement runs only inside the branch taken when an ASCII hyphen is
already present, exactly as in the source. -/
def parse_date_input (date_input : List Char) : Option (PyDate × PyDate) :=
  if date_input.contains '-' then
    let replaced := pyReplace emDash '-' (pyReplace enDash '-' date_input)
    let parts :=
      if containsSub [' ', '-', ' '] replaced then pySplit [' ', '-', ' '] replaced
      else pySplit ['-'] replaced
    match parts with
    | [p1, p2] =>
      match parseDMY (pyStrip p1), parseDMY (pyStrip p2) with
      | some d1, some d2 => some (d1, d2)
      | _, _ => none
    | _ => none
  else
    match parseDMY (pyStrip date_input) with
    | some d => some (d, d)
    | none => none

/-- The date filter test of main line 226: start_date <= file_date <= end_date. -/
def dateInWindow (start_date end_date d : PyDate) : Bool :=
  PyDate.leb start_date d && PyDate.leb d end_date

/-- Full regex match for strptime format year sep month sep day, one space,
hour colon minute colon second, requiring the whole input to be consumed. -/
def matchDTWith (sep : Char) (s : List Char) : Option (Nat × Nat × Nat × Nat × Nat × Nat) :=
  match year4 s with
  | some (y, c :: r1) =>
    if c = sep then
      firstSome (fun mc =>
        match mc.2 with
        | c2 :: r2 =>
          if c2 = sep then
            firstSome (fun dc =>
              match dc.2 with
              | ' ' :: r3 =>
                firstSome (fun hc =>
                  match hc.2 with
                  | ':' :: r4 =>
                    firstSome (fun mic =>
                      match mic.2 with
                      | ':' :: r5 =>
                        firstSome (fun sc =>
                          match sc.2 with
                          | [] => some (y, mc.1, dc.1, hc.1, mic.1, sc.1)
                          | _ => none) (secCands r5)
                      | _ => none) (minCands r4)
                  | _ => none) (hourCands r3)
              | _ => none) (dayCands r2)
          else none
        | _ => none) (monthCands r1)
    else none
  | _ => none

/-- datetime constructor validation for the six components (the regex already
bounds hour and minute, but a leap second 60 or 61 passes the regex and is
rejected by the constructor). -/
def validDT (y mo d h mi s : Nat) : Bool :=
  validDate y mo d && decide (h ≤ 23 ∧ mi ≤ 59 ∧ s ≤ 59)

def parseDTWith (sep : Char) (s : List Char) : Option PyDateTime :=
  match matchDTWith sep s with
  | some (y, mo, d, h, mi, sec) =>
    if validDT y mo d h mi sec then some ⟨y, mo, d, h, mi, sec⟩ else none
  | none => none

/-- strptime with the colon-separated layout of exiftool_get_metadata. -/
def parseColonDT (s : List Char) : Option PyDateTime := parseDTWith ':' s

/-- strptime with the hyphen-separated layout of exiftool_get_metadata. -/
def parseHyphenDT (s : List Char) : Option PyDateTime := parseDTWith '-' s

/-- The format loop in exiftool_get_metadata: the colon layout is tried first,
the hyphen layout second; both failing leaves the timestamp absent. -/
def parseDT (s : List Char) : Option PyDateTime :=
  match parseColonDT s with
  | some dt => some dt
  | none => parseHyphenDT s

/-- One JSON object of the exiftool -j output (only the two requested tags). -/
structure ExifInfo where
  model : Option (List Char)
  dtOrig : Option (List Char)
deriving DecidableEq

/-- Outcome of the subprocess call plus JSON decoding for one file: err is any
raised exception (tool not installed, JSON decode failure, unexpected shape),
caught by the outer except of exiftool_get_metadata; ran is a completed call
with its return code and the decoded object list. -/
inductive ExifOutcome where
  | err : ExifOutcome
  | ran : Int → List ExifInfo → ExifOutcome
deriving DecidableEq

/-- The dict returned by exiftool_get_metadata when it does not return None. -/
structure MetaResult where
  model : Option (List Char)
  datetime_original : Option PyDateTime
deriving DecidableEq

/-- exiftool_get_metadata from src/main.py: non-zero exit, empty decoded data
or any exception yield none; an empty timestamp string is falsy in Python and
is skipped; an unparsable one leaves the field absent. -/
def exiftool_get_metadata : ExifOutcome → Option MetaResult
  | ExifOutcome.err => none
  | ExifOutcome.ran rc data =>
    if rc ≠ 0 then none
    else
      match data with
      | [] => none
      | info :: _ =>
        some ⟨info.model,
          match info.dtOrig with
          | none => none
          | some s => if s = [] then none else parseDT s⟩

/-- extract_camera_model from src/main.py: the stripped model when the probe
returned a dict whose model field is truthy. -/
def extract_camera_model (o : ExifOutcome) : Option (List Char) :=
  match exiftool_get_metadata o with
  | none => none
  | some meta =>
    match meta.model with
    | none => none
    | some m => if m = [] then none else some (pyStrip m)

/-- The timestamp component of one probe. -/
def probeTimestamp (o : ExifOutcome) : Option PyDateTime :=
  match exiftool_get_metadata o with
  | none => none
  | some meta => meta.datetime_original

/-- get_file_date from src/main.py: metadata is consulted only when the
extension is in photo_extensions; otherwise, and when no parsable embedded
timestamp exists, the file modification time is returned. -/
def get_file_date (o : ExifOutcome) (mtime : PyDateTime) (ext : List Char)
    (photoExts : List (List Char)) : PyDateTime :=
  if photoExts.contains ext then
    match exiftool_get_metadata o with
    | some meta =>
      match meta.datetime_original with
      | some dt => dt
      | none => mtime
    | none => mtime
  else mtime

/-- The scan over completed probe results in find_first_camera_model_in_parallel
(the as_completed loop): the first truthy model wins; None and the empty
string are skipped. -/
def find_first_model_loop : List (Option (List Char)) → Option (List Char)
  | [] => none
  | r :: rest =>
    match r with
    | some m => if m = [] then find_first_model_loop rest else some m
    | none => find_first_model_loop rest

/-- find_first_camera_model_in_parallel from src/main.py: the candidate list is
given in completion order; the second component counts the probe tasks
submitted (the source returns None before creating the executor when the
candidate list is empty, and otherwise submits one future per candidate). -/
def find_first_camera_model_in_parallel {α : Type} (photo_files : List α)
    (probe : α → Option (List Char)) : Option (List Char) × Nat :=
  if photo_files.isEmpty then (none, 0)
  else (find_first_model_loop (photo_files.map probe), photo_files.length)

/-- Split l as before ++ dot :: after with after dot-free (i.e. at the last
dot), when some dot occurs. -/
def splitAtLastDot : List Char → Option (List Char × List Char)
  | [] => none
  | c :: rest =>
    match splitAtLastDot rest with
    | some (b, a) => some (c :: b, a)
    | none => if c = '.' then some ([], rest) else none

/-- os.path.splitext(name)[1] for a bare file name: the extension starts at the
last dot, and is empty when every character before that dot is itself a dot. -/
def splitextExt (l : List Char) : List Char :=
  match splitAtLastDot l with
  | some (before, after) => if before.any (fun c => c != '.') then '.' :: after else []
  | none => []

/-- os.path.splitext(name)[1].lower(); the extensions here are ASCII, where
Char.toLower agrees with str.lower. -/
def extOfName (name : List Char) : List Char := (splitextExt name).map Char.toLower

/-- The photo extension set of main. -/
def photo_extensions : List (List Char) :=
  [".jpg".data, ".jpeg".data, ".cr2".data, ".nef".data, ".arw".data,
   ".dng".data, ".cr3".data, ".raf".data, ".gpr".data]

/-- The video extension set of main. -/
def video_extensions : List (List Char) :=
  [".mp4".data, ".mov".data, ".avi".data, ".mkv".data]

/-- Outcome of the filesystem operations inside the try block of secure_copy:
copyOk false means some call raised (the except branch); otherwise the two
observed byte sizes are compared. -/
structure CopyEnv where
  copyOk : Bool
  srcSize : Nat
  dstSize : Nat
deriving DecidableEq

/-- Per-file filesystem outcome for process_file: create_directory may raise
(mkdirOk false), and the copy has its own outcome. -/
structure FileEnv where
  mkdirOk : Bool
  copy : CopyEnv
deriving DecidableEq

/-- The size-mismatch warning printed by secure_copy. -/
def mismatchMsg (src : List Char) : List Char :=
  "Warning: Size mismatch for ".data ++ src

/-- The copy-error message printed by the except branch of secure_copy. -/
def copyErrMsg (src dst : List Char) : List Char :=
  "Error copying ".data ++ src ++ " to ".data ++ dst

/-- secure_copy from src/main.py: true only when nothing raised and the sizes
match; the second component is the printed messages. -/
def secure_copy (src dst : List Char) (e : CopyEnv) : Bool × List (List Char) :=
  if e.copyOk then
    if e.srcSize = e.dstSize then (true, [])
    else (false, [mismatchMsg src])
  else (false, [copyErrMsg src dst])

/-- os.path.join for a relative second component. -/
def pyJoin (a b : List Char) : List Char := a ++ '/' :: b

/-- The target subfolder name: ext[1:].upper(). -/
def extUpper (name : List Char) : List Char :=
  ((extOfName name).drop 1).map Char.toUpper

/-- process_file from src/main.py: an unsupported extension returns
(False, file_name) before any directory side effect; create_directory raising
propagates to the caller as Except.error; otherwise the secure_copy result is
paired with the file name. -/
def process_file (root name photography_main videography_main : List Char)
    (env : FileEnv) : Except Unit (Bool × List Char) :=
  let ext := extOfName name
  let src := pyJoin root name
  if photo_extensions.contains ext then
    if env.mkdirOk then
      Except.ok ((secure_copy src (pyJoin (pyJoin photography_main (extUpper name)) name) env.copy).1, name)
    else Except.error ()
  else if video_extensions.contains ext then
    if env.mkdirOk then
      Except.ok ((secure_copy src (pyJoin (pyJoin videography_main (extUpper name)) name) env.copy).1, name)
    else Except.error ()
  else Except.ok (false, name)

/-- One unit of work of the transfer stage, with its filesystem outcome. -/
structure TransferTask where
  root : List Char
  name : List Char
  photography_main : List Char
  videography_main : List Char
  env : FileEnv

def runTask (t : TransferTask) : Except Unit (Bool × List Char) :=
  process_file t.root t.name t.photography_main t.videography_main t.env

/-- The worker pool: every task is processed independently. -/
def transferBatch (tasks : List TransferTask) : List (Except Unit (Bool × List Char)) :=
  tasks.map runTask

/-- The aggregation loop of main over completed futures (lines 260-269): cur is
the Python variable file_name, whose value entering the loop is the last file
name bound by the enumeration loop; a raising future takes the except branch,
which appends that stale value and leaves it unchanged. -/
def aggLoop : List (Except Unit (Bool × List Char)) → Nat → List (List Char) → List Char →
    Nat × List (List Char)
  | [], sc, sk, _ => (sc, sk)
  | Except.ok (true, nm) :: rest, sc, sk, _ => aggLoop rest (sc + 1) sk nm
  | Except.ok (false, nm) :: rest, sc, sk, _ => aggLoop rest sc (sk ++ [nm]) nm
  | Except.error _ :: rest, sc, sk, cur => aggLoop rest sc (sk ++ [cur]) cur

/-- The transfer summary: success count and skipped list, from the results in
completion order. -/
def summarize (results : List (Except Unit (Bool × List Char)))
    (lastEnumerated : List Char) : Nat × List (List Char) :=
  aggLoop results 0 [] lastEnumerated

/-- folder_suffix of main line 204: model_name joined by an underscore, spaces
replaced by underscores. -/
def folder_suffix (camera_model photographer_name : List Char) : List Char :=
  pyReplace ' ' '_' (camera_model ++ '_' :: photographer_name)

def isPhotoName (name : List Char) : Bool := photo_extensions.contains (extOfName name)

def isVideoName (name : List Char) : Bool := video_extensions.contains (extOfName name)

/-- The directories passed to create_directory by the planning part of main
(lines 206-245), as segment lists under the event folder. -/
def plannedDirs (e suffix : List Char) (files : List (List Char)) : List (List (List Char)) :=
  [[e, "Graphics".data]]
  ++ (if files.any isPhotoName then [[e, "Photography".data, suffix]] else [])
  ++ (if files.any isVideoName then
        [[e, "Videography".data],
         [e, "Videography".data, suffix],
         [e, "Videography".data, "EXPORT".data],
         [e, "Videography".data, "Project Files".data],
         [e, "Videography".data, "VFX + SFX Folder".data]]
      else [])

/-- The target folder created by process_file for one file, if any. -/
def targetFolderSegs (e suffix name : List Char) : Option (List (List Char)) :=
  if isPhotoName name then some [e, "Photography".data, suffix, extUpper name]
  else if isVideoName name then some [e, "Videography".data, suffix, extUpper name]
  else none

/-- All directories passed to create_directory over a whole run, for the given
surviving files. -/
def createdDirs (e suffix : List Char) (files : List (List Char)) : List (List (List Char)) :=
  plannedDirs e suffix files ++ files.filterMap (targetFolderSegs e suffix)

/-- A user-visible interaction of main: a prompt that waits for input, or a
printed message. -/
inductive UiEvent where
  | promptUser : List Char → UiEvent
  | printMsg : List Char → UiEvent
deriving DecidableEq

def UiEvent.isPrompt : UiEvent → Bool
  | UiEvent.promptUser _ => true
  | UiEvent.printMsg _ => false

def parseErrorNotice : List Char := "Error parsing date input".data

def continueNotice : List Char := "Continuing without date filtering due to input error.".data

/-- The decision state after the date-filter block of main (lines 173-181). -/
structure DateFilterDecision where
  use_date_filter : Bool
  start_date : Option PyDate
  end_date : Option PyDate
deriving DecidableEq

/-- The date-filter block of main: the decision reached and the interaction
events it performs. On a parse failure the except branch of parse_date_input
prints the error and main prints the continuation notice; no input is
requested anywhere in the block. -/
def dateFilterStage (date_input : List Char) : DateFilterDecision × List UiEvent :=
  if date_input = [] then (⟨false, none, none⟩, [])
  else
    match parse_date_input date_input with
    | some (s, e) => (⟨true, some s, some e⟩, [])
    | none => (⟨false, none, none⟩,
        [UiEvent.printMsg parseErrorNotice, UiEvent.printMsg continueNotice])

/-! ## Helper lemmas -/

theorem contains_of_mem {c : Char} {l : List Char} (h : c ∈ l) : l.contains c = true :=
  List.elem_eq_true_of_mem h

theorem dropWhile_head_not (p : Char → Bool) :
    ∀ (l : List Char) (c : Char), (l.dropWhile p).head? = some c → p c = false := by
  intro l
  induction l with
  | nil => intro c h; rw [List.dropWhile_nil] at h; simp at h
  | cons a rest ih =>
    intro c h
    cases ha : p a with
    | true =>
      rw [List.dropWhile_cons, ha] at h
      simp only [eq_self_iff_true, if_true] at h
      exact ih c h
    | false =>
      rw [List.dropWhile_cons, ha] at h
      simp only [Bool.false_eq_true, if_false, List.head?_cons, Option.some.injEq] at h
      subst h
      exact ha

theorem dropWhile_eq_self_of_head (p : Char → Bool) (l : List Char)
    (h : ∀ c, l.head? = some c → p c = false) : l.dropWhile p = l := by
  cases l with
  | nil => rfl
  | cons a rest => simp [List.dropWhile_cons, h a rfl]

theorem dropWhile_ex_append (p : Char → Bool) :
    ∀ (l : List Char), ∃ u, l = u ++ l.dropWhile p := by
  intro l
  induction l with
  | nil => exact ⟨[], rfl⟩
  | cons a rest ih =>
    by_cases ha : p a
    · obtain ⟨u, hu⟩ := ih
      refine ⟨a :: u, ?_⟩
      simp only [List.dropWhile_cons, ha, if_true, List.cons_append]
      exact congrArg (a :: ·) hu
    · exact ⟨[], by simp [List.dropWhile_cons, ha]⟩

theorem pyStrip_idem (l : List Char) : pyStrip (pyStrip l) = pyStrip l := by
  unfold pyStrip
  have h1 : ((((l.dropWhile pyIsSpace).reverse.dropWhile pyIsSpace).reverse).dropWhile pyIsSpace) =
      ((l.dropWhile pyIsSpace).reverse.dropWhile pyIsSpace).reverse := by
    apply dropWhile_eq_self_of_head
    intro c hc
    obtain ⟨u, hu⟩ := dropWhile_ex_append pyIsSpace (l.dropWhile pyIsSpace).reverse
    have ha2 : l.dropWhile pyIsSpace =
        ((l.dropWhile pyIsSpace).reverse.dropWhile pyIsSpace).reverse ++ u.reverse := by
      have := congrArg List.reverse hu
      simpa using this
    have hc2 : (l.dropWhile pyIsSpace).head? = some c := by
      rw [ha2]
      cases hXr : ((l.dropWhile pyIsSpace).reverse.dropWhile pyIsSpace).reverse with
      | nil => rw [hXr] at hc; simp at hc
      | cons y ys =>
        rw [hXr] at hc
        simp only [List.head?_cons, Option.some.injEq] at hc
        subst hc
        simp
    exact dropWhile_head_not pyIsSpace l c hc2
  rw [h1, List.reverse_reverse]
  have h2 : ((l.dropWhile pyIsSpace).reverse.dropWhile pyIsSpace).dropWhile pyIsSpace =
      (l.dropWhile pyIsSpace).reverse.dropWhile pyIsSpace := by
    apply dropWhile_eq_self_of_head
    intro c hc
    exact dropWhile_head_not pyIsSpace (l.dropWhile pyIsSpace).reverse c hc
  rw [h2]

theorem head_mem_of_head_some {l : List Char} {c : Char} (h : l.head? = some c) : c ∈ l := by
  cases l with
  | nil => simp at h
  | cons a rest =>
    simp only [List.head?_cons, Option.some.injEq] at h
    subst h
    exact List.mem_cons_self a rest

theorem pyStrip_eq_self (l : List Char) (h : ∀ c ∈ l, pyIsSpace c = false) : pyStrip l = l := by
  unfold pyStrip
  have h1 : l.dropWhile pyIsSpace = l :=
    dropWhile_eq_self_of_head _ _ fun c hc => h c (head_mem_of_head_some hc)
  rw [h1]
  have h2 : l.reverse.dropWhile pyIsSpace = l.reverse :=
    dropWhile_eq_self_of_head _ _ fun c hc =>
      h c (List.mem_reverse.1 (head_mem_of_head_some hc))
  rw [h2, List.reverse_reverse]

theorem pyReplace_eq_self (old new : Char) (l : List Char) (h : ∀ c ∈ l, c ≠ old) :
    pyReplace old new l = l := by
  unfold pyReplace
  have hcong : ∀ c ∈ l, (if c = old then new else c) = c := fun c hc => if_neg (h c hc)
  rw [List.map_congr_left hcong]
  simp

theorem isPrefixOf_self_append : ∀ (l t : List Char), l.isPrefixOf (l ++ t) = true := by
  intro l t
  induction l with
  | nil => cases t <;> rfl
  | cons a as ih => simp [List.isPrefixOf, ih]

theorem isPrefixOf_cons_of_ne (x c : Char) (xs r : List Char) (h : c ≠ x) :
    (x :: xs).isPrefixOf (c :: r) = false := by
  have hb : (x == c) = false := beq_eq_false_iff_ne.mpr (Ne.symm h)
  show ((x == c) && xs.isPrefixOf r) = false
  rw [hb, Bool.false_and]

theorem containsSub_sandwich (x : Char) (xs : List Char) :
    ∀ (l1 l2 : List Char), containsSub (x :: xs) (l1 ++ (x :: xs) ++ l2) = true := by
  intro l1 l2
  induction l1 with
  | nil =>
    have hpre : (x :: xs).isPrefixOf (x :: (xs ++ l2)) = true := isPrefixOf_self_append (x :: xs) l2
    show ((x :: xs).isPrefixOf (x :: (xs ++ l2)) || containsSub (x :: xs) (xs ++ l2)) = true
    rw [hpre, Bool.true_or]
  | cons c t ih =>
    show ((x :: xs).isPrefixOf (c :: (t ++ (x :: xs) ++ l2)) ||
          containsSub (x :: xs) (t ++ (x :: xs) ++ l2)) = true
    rw [ih, Bool.or_true]

theorem pySplitGo_no_match (x : Char) (xs : List Char) :
    ∀ (fuel : Nat) (s acc : List Char), s.length < fuel → (∀ c ∈ s, c ≠ x) →
      pySplitGo (x :: xs) fuel s acc = [acc.reverse ++ s] := by
  intro fuel
  induction fuel with
  | zero => intro s acc h _; exact absurd h (Nat.not_lt_zero _)
  | succ f ih =>
    intro s acc h hc
    cases s with
    | nil => simp [pySplitGo]
    | cons c rest =>
      have hpre : (x :: xs).isPrefixOf (c :: rest) = false :=
        isPrefixOf_cons_of_ne x c xs rest (hc c (List.mem_cons_self c rest))
      simp only [pySplitGo, hpre, Bool.false_eq_true, if_false]
      rw [ih rest (c :: acc) (by simp at h; omega)
        (fun d hd => hc d (List.mem_cons_of_mem c hd))]
      simp

theorem pySplitGo_mid (x : Char) (xs l2 : List Char) (h2 : ∀ c ∈ l2, c ≠ x) :
    ∀ (l1 : List Char) (fuel : Nat) (acc : List Char),
      (l1 ++ (x :: xs) ++ l2).length < fuel → (∀ c ∈ l1, c ≠ x) →
      pySplitGo (x :: xs) fuel (l1 ++ (x :: xs) ++ l2) acc = [acc.reverse ++ l1, l2] := by
  intro l1
  induction l1 with
  | nil =>
    intro fuel acc h _
    cases fuel with
    | zero => exact absurd h (Nat.not_lt_zero _)
    | succ f =>
      have hpre : (x :: xs).isPrefixOf (x :: (xs ++ l2)) = true :=
        isPrefixOf_self_append (x :: xs) l2
      show pySplitGo (x :: xs) (f + 1) (x :: (xs ++ l2)) acc = [acc.reverse ++ [], l2]
      simp only [pySplitGo, hpre, if_true]
      have hdrop : List.drop (x :: xs).length (x :: (xs ++ l2)) = l2 := by
        simp
      rw [hdrop]
      rw [pySplitGo_no_match x xs f l2 [] (by simp at h; omega) h2]
      simp
  | cons c t ih =>
    intro fuel acc h hl
    cases fuel with
    | zero => exact absurd h (Nat.not_lt_zero _)
    | succ f =>
      have hpre : (x :: xs).isPrefixOf (c :: (t ++ (x :: xs) ++ l2)) = false :=
        isPrefixOf_cons_of_ne x c _ _ (hl c (List.mem_cons_self c t))
      show pySplitGo (x :: xs) (f + 1) (c :: (t ++ (x :: xs) ++ l2)) acc =
        [acc.reverse ++ (c :: t), l2]
      simp only [pySplitGo, hpre, Bool.false_eq_true, if_false]
      rw [ih f (c :: acc) (by simp at h ⊢; omega) (fun d hd => hl d (List.mem_cons_of_mem c hd))]
      simp

theorem pySplit_sandwich (x : Char) (xs l1 l2 : List Char)
    (h1 : ∀ c ∈ l1, c ≠ x) (h2 : ∀ c ∈ l2, c ≠ x) :
    pySplit (x :: xs) (l1 ++ (x :: xs) ++ l2) = [l1, l2] := by
  unfold pySplit
  rw [pySplitGo_mid x xs l2 h2 l1 ((l1 ++ (x :: xs) ++ l2).length + 1) []
    (Nat.lt_succ_self _) h1]
  simp

/-- Characters allowed in a canonical date string: digits and slashes. -/
def goodDateChars (s : List Char) : Bool := s.all fun c => c.isDigit || c == '/'

theorem digit_ne (c d : Char) (hc : c.isDigit = true) (hd : d.isDigit = false) : c ≠ d := by
  intro he
  subst he
  rw [hc] at hd
  cases hd

theorem goodChar_facts (c : Char) (h : (c.isDigit || c == '/') = true) :
    c ≠ enDash ∧ c ≠ emDash ∧ c ≠ ' ' ∧ pyIsSpace c = false := by
  rw [Bool.or_eq_true] at h
  rcases h with h | h
  · refine ⟨digit_ne c enDash h (by decide), digit_ne c emDash h (by decide),
      digit_ne c ' ' h (by decide), ?_⟩
    simp only [pyIsSpace, Bool.or_eq_false_iff, beq_eq_false_iff_ne]
    exact ⟨⟨⟨⟨⟨digit_ne c ' ' h (by decide), digit_ne c '\t' h (by decide)⟩,
      digit_ne c '\n' h (by decide)⟩, digit_ne c '\r' h (by decide)⟩,
      digit_ne c (Char.ofNat 11) h (by decide)⟩, digit_ne c (Char.ofNat 12) h (by decide)⟩
  · have hc : c = '/' := by simpa using h
    subst hc
    exact ⟨by decide, by decide, by decide, by decide⟩

theorem goodDateChars_facts {s : List Char} (h : goodDateChars s = true) :
    (∀ c ∈ s, c ≠ enDash) ∧ (∀ c ∈ s, c ≠ emDash) ∧ (∀ c ∈ s, c ≠ ' ') ∧
    (∀ c ∈ s, pyIsSpace c = false) := by
  rw [goodDateChars, List.all_eq_true] at h
  exact ⟨fun c hc => (goodChar_facts c (h c hc)).1,
    fun c hc => (goodChar_facts c (h c hc)).2.1,
    fun c hc => (goodChar_facts c (h c hc)).2.2.1,
    fun c hc => (goodChar_facts c (h c hc)).2.2.2⟩

/-- Parsing two canonical date strings joined by a spaced ASCII hyphen follows
the range branch and returns the two dates verbatim, in input order. -/
theorem parse_two_dates (s1 s2 : List Char) (d1 d2 : PyDate)
    (g1 : goodDateChars s1 = true) (g2 : goodDateChars s2 = true)
    (p1 : parseDMY s1 = some d1) (p2 : parseDMY s2 = some d2) :
    parse_date_input (s1 ++ [' ', '-', ' '] ++ s2) = some (d1, d2) := by
  obtain ⟨he1, hm1, hsp1, hw1⟩ := goodDateChars_facts g1
  obtain ⟨he2, hm2, hsp2, hw2⟩ := goodDateChars_facts g2
  have hmid : ∀ c ∈ ([' ', '-', ' '] : List Char), c ≠ enDash ∧ c ≠ emDash := by decide
  have hcontains : (s1 ++ [' ', '-', ' '] ++ s2).contains '-' = true :=
    contains_of_mem (by simp)
  have hrep1 : pyReplace enDash '-' (s1 ++ [' ', '-', ' '] ++ s2) =
      s1 ++ [' ', '-', ' '] ++ s2 := by
    apply pyReplace_eq_self
    intro c hc
    rcases List.mem_append.1 hc with hc | hc
    · rcases List.mem_append.1 hc with hc | hc
      · exact he1 c hc
      · exact (hmid c hc).1
    · exact he2 c hc
  have hrep2 : pyReplace emDash '-' (s1 ++ [' ', '-', ' '] ++ s2) =
      s1 ++ [' ', '-', ' '] ++ s2 := by
    apply pyReplace_eq_self
    intro c hc
    rcases List.mem_append.1 hc with hc | hc
    · rcases List.mem_append.1 hc with hc | hc
      · exact hm1 c hc
      · exact (hmid c hc).2
    · exact hm2 c hc
  have hsand : containsSub [' ', '-', ' '] (s1 ++ [' ', '-', ' '] ++ s2) = true :=
    containsSub_sandwich ' ' ['-', ' '] s1 s2
  have hsplit : pySplit [' ', '-', ' '] (s1 ++ [' ', '-', ' '] ++ s2) = [s1, s2] :=
    pySplit_sandwich ' ' ['-', ' '] s1 s2 hsp1 hsp2
  have hst1 : pyStrip s1 = s1 := pyStrip_eq_self s1 hw1
  have hst2 : pyStrip s2 = s2 := pyStrip_eq_self s2 hw2
  rw [parse_date_input]
  rw [hcontains]
  simp only [if_true, hrep1, hrep2, hsand, hsplit, hst1, hst2, p1, p2]

/-! ## Claim theorems -/

theorem aggLoop_count : ∀ (results : List (Except Unit (Bool × List Char))) (sc : Nat)
    (sk : List (List Char)) (cur : List Char),
    (aggLoop results sc sk cur).1 + (aggLoop results sc sk cur).2.length =
      sc + sk.length + results.length := by
  intro results
  induction results with
  | nil => intro sc sk cur; simp [aggLoop]
  | cons r rest ih =>
    intro sc sk cur
    rcases r with e | ⟨b, nm⟩
    · simp only [aggLoop, ih, List.length_append, List.length_cons, List.length_nil]
      omega
    · cases b
      · simp only [aggLoop, ih, List.length_append, List.length_cons, List.length_nil]
        omega
      · simp only [aggLoop, ih, List.length_cons]
        omega

/-- Claim C1 (code bug evaluation): a batch of two submitted files a.jpg and
b.jpg, enumerated in that order, where the worker for a.jpg raises inside
create_directory and the worker for b.jpg succeeds. The summary still balances
(1 success + 1 skipped = 2 files), but the except branch of the aggregation
loop appends the stale file_name variable, so a.jpg yields no outcome at all
while b.jpg yields two: a success and a skipped entry. -/
theorem spec_c1_failing :
    process_file "r".data "a.jpg".data "p".data "v".data ⟨false, ⟨true, 1, 1⟩⟩ =
      Except.error ()
    ∧ process_file "r".data "b.jpg".data "p".data "v".data ⟨true, ⟨true, 1, 1⟩⟩ =
      Except.ok (true, "b.jpg".data)
    ∧ summarize
        [process_file "r".data "a.jpg".data "p".data "v".data ⟨false, ⟨true, 1, 1⟩⟩,
         process_file "r".data "b.jpg".data "p".data "v".data ⟨true, ⟨true, 1, 1⟩⟩]
        "b.jpg".data = (1, ["b.jpg".data])
    ∧ "a.jpg".data ∉ ["b.jpg".data] :=
  ⟨rfl, rfl, rfl, by decide⟩

/-- Claim C2: a file transfer succeeds iff the copy block raised no error and
the observed byte sizes match; a pure size mismatch is reported with the
dedicated mismatch message, which differs from every copy-error message; and
the batch maps each task to its own outcome, a function of that task alone. -/
theorem spec_c2 :
    (∀ (src dst : List Char) (e : CopyEnv),
      ((secure_copy src dst e).1 = true ↔ e.copyOk = true ∧ e.srcSize = e.dstSize)
      ∧ (e.copyOk = true → e.srcSize ≠ e.dstSize →
          (secure_copy src dst e).2 = [mismatchMsg src]))
    ∧ (∀ (src src2 dst2 : List Char), mismatchMsg src ≠ copyErrMsg src2 dst2)
    ∧ (∀ (tasks : List TransferTask) (i : Nat),
        (transferBatch tasks)[i]? = (tasks[i]?).map runTask) := by
  refine ⟨?_, ?_, ?_⟩
  · intro src dst e
    rcases e with ⟨ok, ss, ds⟩
    cases ok
    · constructor
      · simp [secure_copy]
      · intro h; cases h
    · by_cases hs : ss = ds
      · constructor
        · simp [secure_copy, hs]
        · intro _ hne; exact absurd hs hne
      · constructor
        · simp [secure_copy, hs]
        · intro _ _; simp [secure_copy, hs]
  · intro src src2 dst2 h
    have h2 := congrArg List.head? h
    rw [show (mismatchMsg src).head? = some 'W' from rfl,
        show (copyErrMsg src2 dst2).head? = some 'E' from rfl] at h2
    exact absurd h2 (by decide)
  · intro tasks i
    simp [transferBatch, List.getElem?_map]

/-- Claim C2 witness: a clean copy of equal sizes succeeds; equal copy with a
one-byte short destination is reported with the mismatch message. -/
theorem spec_c2_witness :
    (secure_copy "s".data "d".data ⟨true, 5, 5⟩).1 = true
    ∧ (secure_copy "s".data "d".data ⟨true, 5, 4⟩).2 = [mismatchMsg "s".data] :=
  ⟨((spec_c2.1 "s".data "d".data ⟨true, 5, 5⟩).1).mpr ⟨rfl, rfl⟩,
   (spec_c2.1 "s".data "d".data ⟨true, 5, 4⟩).2 rfl (by decide)⟩

/-- Claim C3 counterexample: two well-formed dates in reverse order parse to a
valid window whose start is after its end, so the start-before-end invariant is
not enforced at parse time. -/
theorem spec_c3_cex :
    parse_date_input "05/06/2024 - 01/06/2024".data = some (⟨2024, 6, 5⟩, ⟨2024, 6, 1⟩)
    ∧ PyDate.leb ⟨2024, 6, 5⟩ ⟨2024, 6, 1⟩ = false :=
  ⟨by decide, by decide⟩

/-- Claim C3 (amended): a successful parse does not enforce the ordering; two
well-formed dates joined by a spaced ASCII hyphen, in reverse order, parse to
the valid window (first, second) with start after end. -/
theorem spec_c3_amended (s1 s2 : List Char) (d1 d2 : PyDate)
    (g1 : goodDateChars s1 = true) (g2 : goodDateChars s2 = true)
    (p1 : parseDMY s1 = some d1) (p2 : parseDMY s2 = some d2)
    (hrev : PyDate.leb d1 d2 = false) :
    parse_date_input (s1 ++ [' ', '-', ' '] ++ s2) = some (d1, d2)
    ∧ PyDate.leb d1 d2 = false :=
  ⟨parse_two_dates s1 s2 d1 d2 g1 g2 p1 p2, hrev⟩

/-- Claim C3 amended witness: the reversed pair 05/06/2024 and 01/06/2024. -/
theorem spec_c3_amended_witness :
    parse_date_input ("05/06/2024".data ++ [' ', '-', ' '] ++ "01/06/2024".data) =
      some (⟨2024, 6, 5⟩, ⟨2024, 6, 1⟩)
    ∧ PyDate.leb ⟨2024, 6, 5⟩ ⟨2024, 6, 1⟩ = false :=
  spec_c3_amended "05/06/2024".data "01/06/2024".data ⟨2024, 6, 5⟩ ⟨2024, 6, 1⟩
    (by decide) (by decide) (by decide) (by decide) (by decide)

theorem find_first_model_loop_none :
    ∀ (l : List (Option (List Char))),
      (find_first_model_loop l = none ↔ ∀ r ∈ l, r = none ∨ r = some []) := by
  intro l
  induction l with
  | nil => simp [find_first_model_loop]
  | cons r rest ih =>
    cases r with
    | none => simp [find_first_model_loop, ih]
    | some m =>
      by_cases hm : m = []
      · subst hm; simp [find_first_model_loop, ih]
      · simp [find_first_model_loop, hm]

theorem find_first_model_loop_some :
    ∀ (l : List (Option (List Char))) (s : List Char),
      find_first_model_loop l = some s → s ≠ [] ∧ some s ∈ l := by
  intro l
  induction l with
  | nil => intro s h; simp [find_first_model_loop] at h
  | cons r rest ih =>
    intro s h
    cases r with
    | none =>
      rw [show find_first_model_loop (none :: rest) = find_first_model_loop rest from rfl] at h
      obtain ⟨h1, h2⟩ := ih s h
      exact ⟨h1, List.mem_cons_of_mem _ h2⟩
    | some m =>
      by_cases hm : m = []
      · subst hm
        rw [show find_first_model_loop (some [] :: rest) = find_first_model_loop rest
          from rfl] at h
        obtain ⟨h1, h2⟩ := ih s h
        exact ⟨h1, List.mem_cons_of_mem _ h2⟩
      · have hred : find_first_model_loop (some m :: rest) = some m := by
          simp [find_first_model_loop, hm]
        rw [hred] at h
        injection h with h
        subst h
        exact ⟨hm, List.mem_cons_self _ _⟩

/-- Claim C4: the camera-identity resolver yields no identity exactly when
there are no candidates or no probe result is a non-empty identity; zero
candidates give the result (none, 0), i.e. not found with no probe submitted;
and any returned identity is a non-empty result of one of the probes. -/
theorem spec_c4 (α : Type) (photo_files : List α) (probe : α → Option (List Char)) :
    ((find_first_camera_model_in_parallel photo_files probe).1 = none ↔
      photo_files = [] ∨ ∀ f ∈ photo_files, probe f = none ∨ probe f = some [])
    ∧ (photo_files = [] → find_first_camera_model_in_parallel photo_files probe = (none, 0))
    ∧ (∀ s, (find_first_camera_model_in_parallel photo_files probe).1 = some s →
        s ≠ [] ∧ ∃ f ∈ photo_files, probe f = some s) := by
  rcases photo_files with _ | ⟨a, rest⟩
  · refine ⟨?_, fun _ => rfl, ?_⟩
    · simp [find_first_camera_model_in_parallel]
    · intro s h
      simp [find_first_camera_model_in_parallel] at h
  · have hred : find_first_camera_model_in_parallel (a :: rest) probe =
        (find_first_model_loop ((a :: rest).map probe), (a :: rest).length) := rfl
    refine ⟨?_, ?_, ?_⟩
    · rw [hred]
      rw [show (find_first_model_loop ((a :: rest).map probe), (a :: rest).length).1 =
        find_first_model_loop ((a :: rest).map probe) from rfl]
      rw [find_first_model_loop_none]
      constructor
      · intro h
        exact Or.inr fun f hf => h (probe f) (List.mem_map_of_mem probe hf)
      · intro h r hr
        rcases h with h | h
        · cases h
        · obtain ⟨f, hf, hfe⟩ := List.mem_map.1 hr
          rw [← hfe]
          exact h f hf
    · intro h; cases h
    · intro s h
      rw [hred] at h
      obtain ⟨h1, h2⟩ := find_first_model_loop_some _ s h
      obtain ⟨f, hf, hfe⟩ := List.mem_map.1 h2
      exact ⟨h1, f, hf, hfe⟩

/-- Claim C4 witness: two candidates, only the second probing to identity X. -/
theorem spec_c4_witness :
    find_first_camera_model_in_parallel ([] : List Nat) (fun _ => none) = (none, 0)
    ∧ (['X'] ≠ ([] : List Char)
        ∧ ∃ f ∈ [0, 1], (fun n => if n = 1 then some ['X'] else none) f = some ['X']) :=
  ⟨(spec_c4 Nat [] (fun _ => none)).2.1 rfl,
   (spec_c4 Nat [0, 1] (fun n => if n = 1 then some ['X'] else none)).2.2 ['X'] (by decide)⟩

/-- Claim C5: the probe is a total function that never raises; every failing
outcome (exception, non-zero exit, empty decoded data) yields both the
identity and the timestamp absent; a returned identity carries no surrounding
whitespace; and a timestamp string matching neither layout leaves the
timestamp absent while the probe still returns its dict with the model. -/
theorem spec_c5 :
    (∀ (rc : Int) (data : List ExifInfo), rc ≠ 0 ∨ data = [] →
      extract_camera_model (ExifOutcome.ran rc data) = none
      ∧ probeTimestamp (ExifOutcome.ran rc data) = none)
    ∧ (extract_camera_model ExifOutcome.err = none ∧ probeTimestamp ExifOutcome.err = none)
    ∧ (∀ (o : ExifOutcome) (s : List Char), extract_camera_model o = some s → pyStrip s = s)
    ∧ (∀ (mo : Option (List Char)) (ds : List Char) (rest : List ExifInfo),
        parseColonDT ds = none → parseHyphenDT ds = none →
        exiftool_get_metadata (ExifOutcome.ran 0 (⟨mo, some ds⟩ :: rest)) =
          some ⟨mo, none⟩) := by
  refine ⟨?_, ⟨rfl, rfl⟩, ?_, ?_⟩
  · intro rc data h
    rcases h with h | rfl
    · constructor
      · simp [extract_camera_model, exiftool_get_metadata, h]
      · simp [probeTimestamp, exiftool_get_metadata, h]
    · have hx : exiftool_get_metadata (ExifOutcome.ran rc []) = none := by
        by_cases hrc : rc = 0
        · subst hrc; rfl
        · simp [exiftool_get_metadata, hrc]
      constructor
      · simp [extract_camera_model, hx]
      · simp [probeTimestamp, hx]
  · intro o s h
    rcases hm : exiftool_get_metadata o with _ | meta
    · simp [extract_camera_model, hm] at h
    · rcases hmo : meta.model with _ | m
      · simp [extract_camera_model, hm, hmo] at h
      · by_cases he : m = []
        · simp [extract_camera_model, hm, hmo, he] at h
        · have hh : pyStrip m = s := by
            have := h
            simp [extract_camera_model, hm, hmo, he] at this
            exact this
          rw [← hh]
          exact pyStrip_idem m
  · intro mo ds rest h1 h2
    have hdt : parseDT ds = none := by
      unfold parseDT
      rw [h1]
      exact h2
    by_cases he : ds = []
    · subst he; rfl
    · simp [exiftool_get_metadata, he, hdt]

/-- Claim C5 witness: a non-zero exit yields both fields absent; a returned
identity is already stripped; an unparsable timestamp string leaves the
timestamp absent with the model intact. -/
theorem spec_c5_witness :
    (extract_camera_model (ExifOutcome.ran 1 []) = none
      ∧ probeTimestamp (ExifOutcome.ran 1 []) = none)
    ∧ pyStrip "Canon R5".data = "Canon R5".data
    ∧ exiftool_get_metadata (ExifOutcome.ran 0 [⟨some "Canon".data, some "junk".data⟩]) =
        some ⟨some "Canon".data, none⟩ :=
  ⟨spec_c5.1 1 [] (Or.inr rfl),
   spec_c5.2.2.1 (ExifOutcome.ran 0 [⟨some "  Canon R5 ".data, none⟩]) "Canon R5".data
     (by decide),
   spec_c5.2.2.2 (some "Canon".data) "junk".data [] (by decide) (by decide)⟩

/-- Claim C6 counterexample: a video file (.mp4) whose embedded metadata holds
a parsable timestamp still resolves to the file modification time, because
get_file_date consults metadata only for photo extensions. -/
theorem spec_c6_cex :
    video_extensions.contains ".mp4".data = true
    ∧ probeTimestamp (ExifOutcome.ran 0 [⟨none, some "2024:06:01 10:00:00".data⟩]) =
        some ⟨2024, 6, 1, 10, 0, 0⟩
    ∧ get_file_date (ExifOutcome.ran 0 [⟨none, some "2024:06:01 10:00:00".data⟩])
        ⟨2020, 1, 1, 0, 0, 0⟩ ".mp4".data photo_extensions = ⟨2020, 1, 1, 0, 0, 0⟩
    ∧ (⟨2020, 1, 1, 0, 0, 0⟩ : PyDateTime) ≠ ⟨2024, 6, 1, 10, 0, 0⟩ :=
  ⟨by decide, by decide, by decide, by decide⟩

/-- Claim C6 (amended): for photo extensions the resolved timestamp is the
parsable embedded one when present and the modification time otherwise; for
every non-photo extension (video included) it is always the modification time. -/
theorem spec_c6_amended (o : ExifOutcome) (mtime : PyDateTime) (ext : List Char) :
    (photo_extensions.contains ext = false →
      get_file_date o mtime ext photo_extensions = mtime)
    ∧ (photo_extensions.contains ext = true →
        (∀ dt, probeTimestamp o = some dt → get_file_date o mtime ext photo_extensions = dt)
        ∧ (probeTimestamp o = none → get_file_date o mtime ext photo_extensions = mtime)) := by
  constructor
  · intro h
    unfold get_file_date
    rw [h]
    simp
  · intro h
    rcases hm : exiftool_get_metadata o with _ | meta
    · constructor
      · intro dt hdt
        simp [probeTimestamp, hm] at hdt
      · intro _
        unfold get_file_date
        rw [h, hm]
        simp
    · constructor
      · intro dt hdt
        have hdt2 : meta.datetime_original = some dt := by
          simpa [probeTimestamp, hm] using hdt
        unfold get_file_date
        rw [h, hm]
        simp [hdt2]
      · intro hdt
        have hdt2 : meta.datetime_original = none := by
          simpa [probeTimestamp, hm] using hdt
        unfold get_file_date
        rw [h, hm]
        simp [hdt2]

/-- Claim C6 amended witness: a photo file takes the embedded timestamp, a
video file keeps its modification time. -/
theorem spec_c6_amended_witness :
    get_file_date (ExifOutcome.ran 0 [⟨none, some "2024:06:01 10:00:00".data⟩])
      ⟨2020, 1, 1, 0, 0, 0⟩ ".jpg".data photo_extensions = ⟨2024, 6, 1, 10, 0, 0⟩
    ∧ get_file_date ExifOutcome.err ⟨2020, 1, 1, 0, 0, 0⟩ ".mp4".data photo_extensions =
        ⟨2020, 1, 1, 0, 0, 0⟩ :=
  ⟨((spec_c6_amended (ExifOutcome.ran 0 [⟨none, some "2024:06:01 10:00:00".data⟩])
      ⟨2020, 1, 1, 0, 0, 0⟩ ".jpg".data).2 (by decide)).1 ⟨2024, 6, 1, 10, 0, 0⟩ (by decide),
   (spec_c6_amended ExifOutcome.err ⟨2020, 1, 1, 0, 0, 0⟩ ".mp4".data).1 (by decide)⟩

/-- Claim C7 (code bug evaluation): the same well-formed pair of dates parses
with the ASCII hyphen but fails with the en dash and with the em dash, because
the typographic-dash replacement is guarded by a check for an ASCII hyphen in
the original input. -/
theorem spec_c7_failing :
    parse_date_input "01/06/2024 – 05/06/2024".data = none
    ∧ parse_date_input "01/06/2024 — 05/06/2024".data = none
    ∧ parse_date_input "01/06/2024 - 05/06/2024".data = some (⟨2024, 6, 1⟩, ⟨2024, 6, 5⟩) :=
  ⟨by decide, by decide, by decide⟩

/-- Claim C8: a single date parses to a window with start equal to end; the
range 01/06/2024 to 05/06/2024 parses to the inclusive window that contains
every day of June 1 through 5 and excludes May 31 and June 6, under the
inclusive range test used by main. -/
theorem spec_c8 :
    parse_date_input "01/06/2024".data = some (⟨2024, 6, 1⟩, ⟨2024, 6, 1⟩)
    ∧ parse_date_input "01/06/2024 - 05/06/2024".data = some (⟨2024, 6, 1⟩, ⟨2024, 6, 5⟩)
    ∧ (∀ k, 1 ≤ k → k ≤ 5 → dateInWindow ⟨2024, 6, 1⟩ ⟨2024, 6, 5⟩ ⟨2024, 6, k⟩ = true)
    ∧ dateInWindow ⟨2024, 6, 1⟩ ⟨2024, 6, 5⟩ ⟨2024, 5, 31⟩ = false
    ∧ dateInWindow ⟨2024, 6, 1⟩ ⟨2024, 6, 5⟩ ⟨2024, 6, 6⟩ = false := by
  refine ⟨by decide, by decide, ?_, by decide, by decide⟩
  intro k h1 h5
  simp [dateInWindow, PyDate.leb]
  omega

/-- Claim C8 witness: June 3 lies in the window. -/
theorem spec_c8_witness :
    dateInWindow ⟨2024, 6, 1⟩ ⟨2024, 6, 5⟩ ⟨2024, 6, 3⟩ = true :=
  spec_c8.2.2.1 3 (by decide) (by decide)

/-- Claim C9 counterexample: on malformed filter text the block prints its
messages and continues unfiltered by itself; no prompt event occurs, so the
caller is never offered a continue-versus-abort decision. -/
theorem spec_c9_cex :
    parse_date_input "banana".data = none
    ∧ (dateFilterStage "banana".data).1.use_date_filter = false
    ∧ ((dateFilterStage "banana".data).2.all fun ev => !ev.isPrompt) = true
    ∧ (dateFilterStage "banana".data).2 ≠ [] :=
  ⟨by decide, by decide, by decide, by decide⟩

/-- Claim C9 (amended): whenever filter text is present but malformed, the
block reports the error and the continuation notice (so the failure is never
silent) and proceeds unfiltered automatically, requesting no decision. -/
theorem spec_c9_amended (t : List Char) (ht : t ≠ []) (hp : parse_date_input t = none) :
    (dateFilterStage t).1 = ⟨false, none, none⟩
    ∧ (dateFilterStage t).2 =
        [UiEvent.printMsg parseErrorNotice, UiEvent.printMsg continueNotice]
    ∧ ((dateFilterStage t).2.all fun ev => !ev.isPrompt) = true := by
  have hred : dateFilterStage t = (⟨false, none, none⟩,
      [UiEvent.printMsg parseErrorNotice, UiEvent.printMsg continueNotice]) := by
    unfold dateFilterStage
    rw [if_neg ht, hp]
  rw [hred]
  exact ⟨rfl, rfl, by decide⟩

/-- Claim C9 amended witness: the malformed input rubbish. -/
theorem spec_c9_amended_witness :
    (dateFilterStage "rubbish".data).1 = ⟨false, none, none⟩
    ∧ (dateFilterStage "rubbish".data).2 =
        [UiEvent.printMsg parseErrorNotice, UiEvent.printMsg continueNotice]
    ∧ ((dateFilterStage "rubbish".data).2.all fun ev => !ev.isPrompt) = true :=
  spec_c9_amended "rubbish".data (by decide) (by decide)

theorem targetFolderSegs_length (e suffix name : List Char) (x : List (List Char))
    (h : targetFolderSegs e suffix name = some x) : x.length = 4 := by
  unfold targetFolderSegs at h
  by_cases hp : isPhotoName name
  · rw [if_pos hp] at h
    injection h with h
    rw [← h]
    rfl
  · rw [if_neg hp] at h
    by_cases hv : isVideoName name
    · rw [if_pos hv] at h
      injection h with h
      rw [← h]
      rfl
    · rw [if_neg hv] at h
      cases h

theorem not_mem_transfer_of_len3 (e suffix : List Char) (files : List (List Char))
    (x : List (List Char)) (hx : x.length = 3) :
    x ∉ files.filterMap (targetFolderSegs e suffix) := by
  intro hmem
  obtain ⟨a, _, hfa⟩ := List.mem_filterMap.1 hmem
  have h4 := targetFolderSegs_length e suffix a x hfa
  omega

/-- Claim C10: over a whole run, the Graphics directory is always created under
the event root; the photo root is created exactly when some surviving file is a
photo; and each of the three auxiliary Videography folders is created exactly
when some surviving file is a video. -/
theorem spec_c10 (e camera_model photographer_name : List Char) (files : List (List Char)) :
    [e, "Graphics".data] ∈ createdDirs e (folder_suffix camera_model photographer_name) files
    ∧ ([e, "Photography".data, folder_suffix camera_model photographer_name] ∈
        createdDirs e (folder_suffix camera_model photographer_name) files ↔
        files.any isPhotoName = true)
    ∧ (∀ aux, aux ∈ [("EXPORT".data : List Char), "Project Files".data,
          "VFX + SFX Folder".data] →
        ([e, "Videography".data, aux] ∈
          createdDirs e (folder_suffix camera_model photographer_name) files ↔
          files.any isVideoName = true)) := by
  set suffix := folder_suffix camera_model photographer_name
  have hPV : "Photography".data ≠ "Videography".data := by decide
  have hVP : "Videography".data ≠ "Photography".data := by decide
  refine ⟨?_, ?_, ?_⟩
  · rw [createdDirs]
    apply List.mem_append_left
    rw [plannedDirs]
    exact List.mem_append_left _ (List.mem_append_left _ (List.mem_cons_self _ _))
  · constructor
    · intro h
      by_contra hp
      rw [Bool.not_eq_true] at hp
      rw [createdDirs] at h
      rcases List.mem_append.1 h with h | h
      · rw [plannedDirs, hp] at h
        cases hv : files.any isVideoName <;> rw [hv] at h <;> simp [hPV] at h
      · exact not_mem_transfer_of_len3 e suffix files
          [e, "Photography".data, suffix] rfl h
    · intro hp
      rw [createdDirs]
      apply List.mem_append_left
      rw [plannedDirs, hp]
      simp
  · intro aux haux
    constructor
    · intro h
      by_contra hv
      rw [Bool.not_eq_true] at hv
      rw [createdDirs] at h
      rcases List.mem_append.1 h with h | h
      · rw [plannedDirs, hv] at h
        cases hp : files.any isPhotoName <;> rw [hp] at h <;> simp [hVP] at h
      · exact not_mem_transfer_of_len3 e suffix files
          [e, "Videography".data, aux] rfl h
    · intro hv
      rw [createdDirs]
      apply List.mem_append_left
      rw [plannedDirs, hv]
      fin_cases haux <;> simp

/-- Claim C10 witness: with one surviving photo file, the Graphics directory
and the photo root are both created; with one surviving video file, the EXPORT
auxiliary folder is created. -/
theorem spec_c10_witness :
    ["e".data, "Graphics".data] ∈
      createdDirs "e".data (folder_suffix "EOS R5".data "Jane Doe".data) ["a.jpg".data]
    ∧ ["e".data, "Photography".data, folder_suffix "EOS R5".data "Jane Doe".data] ∈
        createdDirs "e".data (folder_suffix "EOS R5".data "Jane Doe".data) ["a.jpg".data]
    ∧ ["e".data, "Videography".data, "EXPORT".data] ∈
        createdDirs "e".data (folder_suffix "EOS R5".data "Jane Doe".data) ["clip.mp4".data] :=
  ⟨(spec_c10 "e".data "EOS R5".data "Jane Doe".data ["a.jpg".data]).1,
   ((spec_c10 "e".data "EOS R5".data "Jane Doe".data ["a.jpg".data]).2.1).mpr (by decide),
   (((spec_c10 "e".data "EOS R5".data "Jane Doe".data ["clip.mp4".data]).2.2
      "EXPORT".data (by decide))).mpr (by decide)⟩

end CameraSort
